import Mathlib

/-!
Verification of the SASA payment-notification backend (Express server).

The development shallowly embeds the server's core components:
- the JSON values exchanged on the wire (`Json`, with `JSON.stringify` as
  `stringify` and `JSON.parse` as `jsonParse`);
- the SSE event broadcaster (`sseClients`, `broadcast`, the stream close
  handler);
- the in-memory payment ledger and its `GET /api/payments` /
  `POST /api/payments` handlers;
- the Apple Pay merchant-session validation proxy
  (`POST /api/apple-pay/validate-session`).

Machine numbers are modelled as `Int`; the modelled subset of the JavaScript
builtins is stated in each definition's doc comment.
-/

namespace Sasa

/-! ## JSON values

Model of the JSON values the server produces and consumes.  Numbers are
modelled as integers: every numeric literal appearing in the server's own
responses is an integer, and the claims under study only exercise boolean,
string and object payloads. -/

inductive Json where
  | null : Json
  | bool (b : Bool) : Json
  | num (n : Int) : Json
  | str (s : String) : Json
  | arr (elems : List Json) : Json
  | obj (fields : List (String × Json)) : Json

/-- Escape of a single character inside a JSON string literal, as
`JSON.stringify` performs it (the control characters beyond the common
escapes do not occur in the modelled data). -/
def escapeChar (c : Char) : String :=
  if c = '"' then "\\\""
  else if c = '\\' then "\\\\"
  else if c = '\n' then "\\n"
  else if c = '\t' then "\\t"
  else if c = '\r' then "\\r"
  else String.singleton c

/-- Quoted JSON string literal for `s`. -/
def quoteStr (s : String) : String :=
  "\"" ++ String.join (s.data.map escapeChar) ++ "\""

mutual

/-- Model of `JSON.stringify` on the canonical (no extra whitespace)
serialization, as Node produces it for `res.json(...)` bodies and for the
SSE `data:` lines. -/
def stringify : Json → String
  | .null => "null"
  | .bool true => "true"
  | .bool false => "false"
  | .num n => toString n
  | .str s => quoteStr s
  | .arr l => "[" ++ stringifyElems l ++ "]"
  | .obj l => "\x7b" ++ stringifyFields l ++ "\x7d"

/-- Comma-separated serialization of array elements. -/
def stringifyElems : List Json → String
  | [] => ""
  | [j] => stringify j
  | j :: rest => stringify j ++ "," ++ stringifyElems rest

/-- Comma-separated serialization of object members. -/
def stringifyFields : List (String × Json) → String
  | [] => ""
  | [(k, v)] => quoteStr k ++ ":" ++ stringify v
  | (k, v) :: rest => quoteStr k ++ ":" ++ stringify v ++ "," ++ stringifyFields rest

end

/-- Whitespace skipping used by the `JSON.parse` model. -/
def skipWs : List Char → List Char
  | c :: cs => if c = ' ' ∨ c = '\n' ∨ c = '\t' ∨ c = '\r' then skipWs cs else c :: cs
  | [] => []

/-- Reads the characters of a JSON string literal after the opening quote,
returning the string contents and the remaining input.  Escapes are the
common ones of `escapeChar`; `\uXXXX` escapes are outside the modelled
subset. -/
def readStringChars (fuel : Nat) (cs : List Char) : Option (String × List Char) :=
  match fuel with
  | 0 => none
  | fuel + 1 =>
    match cs with
    | [] => none
    | '"' :: rest => some ("", rest)
    | '\\' :: e :: rest =>
      let unescaped : Option Char :=
        if e = '"' then some '"'
        else if e = '\\' then some '\\'
        else if e = '/' then some '/'
        else if e = 'n' then some '\n'
        else if e = 't' then some '\t'
        else if e = 'r' then some '\r'
        else none
      match unescaped with
      | none => none
      | some c =>
        match readStringChars fuel rest with
        | none => none
        | some (s, rest') => some (String.singleton c ++ s, rest')
    | c :: rest =>
      match readStringChars fuel rest with
      | none => none
      | some (s, rest') => some (String.singleton c ++ s, rest')

/-- Reads a maximal digit run as a natural number (`none` when the first
character is not a digit). -/
def readDigits (fuel : Nat) (cs : List Char) (acc : Option Nat) :
    Option Nat × List Char :=
  match fuel with
  | 0 => (acc, cs)
  | fuel + 1 =>
    match cs with
    | c :: rest =>
      if c.isDigit then
        readDigits fuel rest (some ((acc.getD 0) * 10 + (c.toNat - '0'.toNat)))
      else (acc, cs)
    | [] => (acc, cs)

mutual

/-- Model of `JSON.parse` on a character list: parses one JSON value and
returns the remaining input.  The modelled numeric grammar is integer
literals (an optional minus sign and a digit run); fractional and exponent
forms do not occur in the data under study. -/
def parseValue (fuel : Nat) (cs : List Char) : Option (Json × List Char) :=
  match fuel with
  | 0 => none
  | fuel + 1 =>
    match skipWs cs with
    | [] => none
    | '"' :: rest =>
      match readStringChars (rest.length + 1) rest with
      | none => none
      | some (s, rest') => some (.str s, rest')
    | 't' :: 'r' :: 'u' :: 'e' :: rest => some (.bool true, rest)
    | 'f' :: 'a' :: 'l' :: 's' :: 'e' :: rest => some (.bool false, rest)
    | 'n' :: 'u' :: 'l' :: 'l' :: rest => some (.null, rest)
    | '[' :: rest => parseElems fuel rest true
    | '\x7b' :: rest => parseFields fuel rest true
    | '-' :: rest =>
      match readDigits (rest.length + 1) rest none with
      | (some n, rest') => some (.num (-(n : Int)), rest')
      | (none, _) => none
    | c :: rest =>
      if c.isDigit then
        match readDigits (rest.length + 2) (c :: rest) none with
        | (some n, rest') => some (.num (n : Int), rest')
        | (none, _) => none
      else none

/-- Parses the elements of a JSON array after the opening bracket.
`first` is true before the first element (so that `[]` is accepted and a
leading comma is not). -/
def parseElems (fuel : Nat) (cs : List Char) (first : Bool) :
    Option (Json × List Char) :=
  match fuel with
  | 0 => none
  | fuel + 1 =>
    match skipWs cs with
    | ']' :: rest => if first then some (.arr [], rest) else none
    | cs' =>
      match parseValue fuel cs' with
      | none => none
      | some (j, rest) =>
        match skipWs rest with
        | ']' :: rest' => some (.arr [j], rest')
        | ',' :: rest' =>
          match parseElems fuel rest' false with
          | some (.arr js, rest'') => some (.arr (j :: js), rest'')
          | _ => none
        | _ => none

/-- Parses the members of a JSON object after the opening brace. -/
def parseFields (fuel : Nat) (cs : List Char) (first : Bool) :
    Option (Json × List Char) :=
  match fuel with
  | 0 => none
  | fuel + 1 =>
    match skipWs cs with
    | '\x7d' :: rest => if first then some (.obj [], rest) else none
    | '"' :: rest =>
      match readStringChars (rest.length + 1) rest with
      | none => none
      | some (k, rest') =>
        match skipWs rest' with
        | ':' :: rest'' =>
          match parseValue fuel rest'' with
          | none => none
          | some (v, rest3) =>
            match skipWs rest3 with
            | '\x7d' :: rest4 => some (.obj [(k, v)], rest4)
            | ',' :: rest4 =>
              match parseFields fuel rest4 false with
              | some (.obj kvs, rest5) => some (.obj ((k, v) :: kvs), rest5)
              | _ => none
            | _ => none
        | _ => none
    | _ => none

end

/-- Model of `JSON.parse` on a string: `none` models a thrown `SyntaxError`.
Trailing non-whitespace input is rejected, as in JavaScript. -/
def jsonParse (s : String) : Option Json :=
  match parseValue (2 * s.data.length + 8) s.data with
  | none => none
  | some (j, rest) =>
    match skipWs rest with
    | [] => some j
    | _ => none

/-! ## SSE broadcaster

Embedding of the `sseClients` set and the fan-out primitive
(source lines 60-87).  A subscriber connection is identified by the
response object it was registered with; we model it by an id together
with the state of its underlying transport. -/

structure Conn where
  id : Nat
  isOpen : Bool
deriving DecidableEq, Repr

/-- Wire framing of one SSE event, as built on source line 65:
`event: <name>\ndata: <json>\n\n`. -/
def ssePayload (event : String) (data : Json) : String :=
  "event: " ++ event ++ "\ndata: " ++ stringify data ++ "\n\n"

/-- Model of `res.write(payload)` on a long-lived SSE response.  In Node a
write to a response whose socket has died does not throw synchronously: it
returns and the failure surfaces through the transport close event (handled
on source lines 83-86).  The returned Bool records whether the transport
actually carried the payload. -/
def connWrite (c : Conn) (_payload : String) : Bool :=
  c.isOpen

/-- Embedding of `broadcast(event, data)` (source lines 64-69): one write per
connection currently in the client set, in set order; the result records, per
connection id, whether its write was carried.  The function is total - no
write aborts the loop or raises to the publisher - and it does not touch the
client set. -/
def broadcast (clients : List Conn) (event : String) (data : Json) :
    List (Nat × Bool) :=
  clients.map (fun c => (c.id, connWrite c (ssePayload event data)))

/-- Embedding of the subscription step of `GET /api/payments/stream`
(source line 79): `sseClients.add(res)`; a JavaScript `Set` add is a no-op on
an already-registered member. -/
def subscribe (clients : List Conn) (c : Conn) : List Conn :=
  if c ∈ clients then clients else clients ++ [c]

/-- Embedding of the stream's close handler (source lines 83-86):
`clearInterval(keepAlive); sseClients.delete(res)`.  A JavaScript `Set`
delete removes the member when present and is a silent no-op otherwise. -/
def closeHandler (clients : List Conn) (c : Conn) : List Conn :=
  clients.erase c

/-! ## Payment ledger

Embedding of `store.payments` and the two payment routes
(source lines 106-130). -/

structure Payment where
  name : String
  method : String
  amount : Int
  ts : Int
deriving DecidableEq, Repr

/-- Order underlying the sort on source line 128: the comparator
`(a, b) => b.ts - a.ts` lets `a` stay before `b` exactly when
`b.ts - a.ts <= 0`, i.e. when `b.ts <= a.ts`. -/
def tsGe (a b : Payment) : Prop := b.ts ≤ a.ts

instance : DecidableRel tsGe := fun a b => inferInstanceAs (Decidable (b.ts ≤ a.ts))

instance : IsTotal Payment tsGe := ⟨fun a b => le_total b.ts a.ts⟩

instance : IsTrans Payment tsGe := ⟨fun _ _ _ h1 h2 => le_trans h2 h1⟩

/-- Embedding of `[...store.payments].sort((a, b) => b.ts - a.ts)` (source
line 128).  ECMAScript `Array.prototype.sort` is specified stable, and
insertion sort with the relation `tsGe` ("a may stay before b") is exactly a
stable sort for that comparator; the spread copies the array first, so the
store itself is untouched. -/
def sortPayments (l : List Payment) : List Payment :=
  l.insertionSort tsGe

/-- The ledger's `recent(limit)` read for a non-negative integer limit, as
realized by source lines 127-128: sort a copy by descending timestamp and
take at most `min limit 200` records. -/
def recentCore (payments : List Payment) (limit : Nat) : List Payment :=
  (sortPayments payments).take (min limit 200)

/-- Records tagged with their insertion position (append order) in the
store, starting at index `i`. -/
def tagFrom (i : Nat) : List Payment → List (Payment × Nat)
  | [] => []
  | p :: l => (p, i) :: tagFrom (i + 1) l

/-- Specification-level order on tagged records: strictly later timestamp
first, equal timestamps broken by insertion order with the EARLIER insertion
first.  This renders the amended reading of the spec sentence on tie
breaking. -/
def tagGe (a b : Payment × Nat) : Prop :=
  b.1.ts < a.1.ts ∨ (a.1.ts = b.1.ts ∧ a.2 ≤ b.2)

/-- Order written by the claim as stated: strictly later timestamp first,
equal timestamps broken by insertion order with the LATER insertion
("most-recently-appended") first. -/
def tagGeClaim (a b : Payment × Nat) : Prop :=
  b.1.ts < a.1.ts ∨ (a.1.ts = b.1.ts ∧ b.2 ≤ a.2)

instance : DecidableRel tagGe := fun a b =>
  inferInstanceAs (Decidable (b.1.ts < a.1.ts ∨ (a.1.ts = b.1.ts ∧ a.2 ≤ b.2)))

instance : DecidableRel tagGeClaim := fun a b =>
  inferInstanceAs (Decidable (b.1.ts < a.1.ts ∨ (a.1.ts = b.1.ts ∧ b.2 ≤ a.2)))

/-- Specification-side description of `recent(limit)` with the amended tie
rule: sort the records by (timestamp descending, insertion index ascending)
and take at most `min limit 200`. -/
def specRecentStable (payments : List Payment) (limit : Nat) : List Payment :=
  (((tagFrom 0 payments).insertionSort tagGe).map Prod.fst).take (min limit 200)

/-- Specification-side description of `recent(limit)` with the tie rule as
the claim states it: sort by (timestamp descending, insertion index
DESCENDING) and take at most `min limit 200`. -/
def specRecentClaim (payments : List Payment) (limit : Nat) : List Payment :=
  (((tagFrom 0 payments).insertionSort tagGeClaim).map Prod.fst).take (min limit 200)

/-- Number of stored records whose timestamp is at least `t`. -/
def countGe (l : List Payment) (t : Int) : Nat :=
  (l.filter (fun p => decide (t ≤ p.ts))).length

/-! ### JavaScript number handling at the GET /api/payments interface -/

/-- JavaScript number as it flows through the limit computation of source
line 127.  Only `NaN` and (truncations of) finite decimal values are needed:
the value is consumed by `Math.min` against 200 and then by `ToInteger`
inside `Array.prototype.slice`, and truncation toward zero commutes with
that pipeline. -/
inductive JsNum where
  | nan : JsNum
  | int (n : Int) : JsNum
deriving DecidableEq, Repr

/-- Digit run as a natural number; `none` when empty or non-digit. -/
def digitsToNat (cs : List Char) : Option Nat :=
  if cs.isEmpty then none
  else if cs.all (·.isDigit) then
    some (cs.foldl (fun acc c => acc * 10 + (c.toNat - '0'.toNat)) 0)
  else none

/-- Model of the JavaScript `Number(s)` conversion for the string forms the
limit parameter can take: the empty string converts to 0, and an optional
sign followed by decimal digits with an optional fractional part converts to
its value (kept here already truncated toward zero, which the downstream
`Math.min`/`slice` pipeline preserves).  Every other string converts to
`NaN`; exotic numeric forms (exponents, hex, `Infinity`, surrounding
whitespace) are outside the modelled subset. -/
def jsStringToNumber (s : String) : JsNum :=
  if s = "" then .int 0
  else
    let signBody : Int × List Char :=
      match s.data with
      | '-' :: rest => (-1, rest)
      | '+' :: rest => (1, rest)
      | cs => (1, cs)
    let sign := signBody.1
    let intPart := signBody.2.takeWhile (· ≠ '.')
    let rest := signBody.2.dropWhile (· ≠ '.')
    match rest with
    | [] =>
      match digitsToNat intPart with
      | some n => .int (sign * n)
      | none => .nan
    | '.' :: fracPart =>
      if fracPart.isEmpty then
        match digitsToNat intPart with
        | some n => .int (sign * n)
        | none => .nan
      else if fracPart.all (·.isDigit) then
        match digitsToNat intPart with
        | some n => .int (sign * n)
        | none => .int 0
      else .nan
    | _ => .nan

/-- Model of `Math.min(x, m)` for an integer second argument: `NaN`
propagates. -/
def jsMin (a : JsNum) (m : Int) : JsNum :=
  match a with
  | .nan => .nan
  | .int n => .int (min n m)

/-- Model of `arr.slice(0, e)`: `ToInteger(NaN)` is 0 (empty result), a
negative end counts from the end of the array clamped at 0, and a
non-negative end takes at most that many elements. -/
def jsSliceEnd {α : Type} (l : List α) (e : JsNum) : List α :=
  match e with
  | .nan => []
  | .int n =>
    if n < 0 then l.take (((l.length : Int) + n).toNat)
    else l.take n.toNat

/-- Embedding of the `GET /api/payments` handler body (source lines
126-129): `limit = Math.min(Number(req.query.limit || 25), 200)` followed by
`[...store.payments].sort((a, b) => b.ts - a.ts).slice(0, limit)`.  An
absent query parameter is `undefined` and an empty one is `''`; both are
falsy, so `|| 25` replaces them before the conversion. -/
def getPayments (payments : List Payment) (limitParam : Option String) :
    List Payment :=
  let raw : JsNum :=
    match limitParam with
    | none => .int 25
    | some s => if s = "" then .int 25 else jsStringToNumber s
  jsSliceEnd (sortPayments payments) (jsMin raw 200)

/-- The same handler as a state transformer: it reads the store (through a
spread copy) and never assigns to it, so the returned store is the input
store. -/
def getPaymentsHandler (payments : List Payment) (limitParam : Option String) :
    List Payment × List Payment :=
  (getPayments payments limitParam, payments)

/-! ### POST /api/payments -/

/-- Request body of a payment confirmation before validation
(`req.body`). -/
structure PaymentBody where
  fullName : Option String
  method : Option String
  amount : Option Int

/-- Accepted payment methods of the Joi schema (source line 56). -/
def paymentMethods : List String := ["QR", "Apple Pay", "Bank Transfer"]

/-- Embedding of `paymentSchema.validate` (source lines 54-58): fullName a
string of length 2 to 80, method one of the three accepted values, amount a
number between 1 and 5000.  `none` models a Joi validation error. -/
def paymentValidate (b : PaymentBody) : Option (String × String × Int) :=
  match b.fullName, b.method, b.amount with
  | some n, some m, some a =>
    if 2 ≤ n.length ∧ n.length ≤ 80 ∧ m ∈ paymentMethods ∧ 1 ≤ a ∧ a ≤ 5000 then
      some (n, m, a)
    else none
  | _, _, _ => none

/-- Ledger record built on source lines 111-116 from a validated body and
the `Date.now()` value. -/
def mkEntry (v : String × String × Int) (now : Int) : Payment :=
  ⟨v.1, v.2.1, v.2.2, now⟩

/-- Embedding of the ledger effect of the `POST /api/payments` handler
(source lines 107-123): an invalid body is answered with 400 and leaves the
store untouched; a valid one is appended via `store.payments.push(entry)`.
The handler also publishes the entry through `broadcast "payment"
(paymentJson entry)` on line 120, which is covered by the broadcaster
embedding above. -/
def postPayment (payments : List Payment) (b : PaymentBody) (now : Int) :
    Option Payment × List Payment :=
  match paymentValidate b with
  | none => (none, payments)
  | some v => (some (mkEntry v now), payments ++ [mkEntry v now])

/-- JSON shape of a ledger record as serialized into responses and SSE
events. -/
def paymentJson (p : Payment) : Json :=
  .obj [("name", .str p.name), ("method", .str p.method),
        ("amount", .num p.amount), ("ts", .num p.ts)]

/-! ## Apple Pay merchant-session validation proxy

Embedding of the `POST /api/apple-pay/validate-session` handler (source
lines 138-189).  File-system and network effects are oracles passed in as
functions; the `effects` trace records which privileged operations the
handler actually performed. -/

/-- Observable privileged side effects of the validation handler. -/
inductive Effect where
  | credRead (path : String) : Effect
  | outboundCall (url : String) : Effect
deriving DecidableEq, Repr

/-- Outcome of the outbound `fetch(validationURL, ...)`: either a response
with a status and a raw body text, or a rejection (network failure or
timeout), which the handler's try/catch turns into a generic 500. -/
inductive FetchOutcome where
  | response (status : Nat) (body : String) : FetchOutcome
  | failure : FetchOutcome

/-- Process environment slice consumed by the handler; each variable is
absent (`none`) or a string. -/
structure Env where
  applePayEnabled : Option String
  merchantId : Option String
  merchantDomain : Option String
  merchantDisplayName : Option String
  merchantCertPath : Option String

/-- Source line 17: `APPLE_ENABLED = process.env.APPLE_PAY_ENABLED ===
'true'`. -/
def appleEnabled (e : Env) : Bool := e.applePayEnabled == some "true"

/-- JavaScript falsiness of a possibly-absent string value (`undefined` and
`''` are falsy), as used by the `!MERCHANT_ID`-style checks and by
`!validationURL`. -/
def strFalsy : Option String → Bool
  | none => true
  | some s => s = ""

/-- Error envelope `{ ok: false, error: msg }` sent by every rejecting
branch of the handler. -/
def errJson (msg : String) : Json :=
  .obj [("ok", .bool false), ("error", .str msg)]

/-- Response.ok of the fetch API: status in the inclusive range 200-299. -/
def fetchOk (status : Nat) : Bool :=
  decide (200 ≤ status) && decide (status ≤ 299)

/-- Result of one validation request: HTTP status, JSON body handed to
`res.json`, and the trace of privileged effects performed. -/
structure ValidateResult where
  status : Nat
  body : Json
  effects : List Effect

/-- Embedding of the `POST /api/apple-pay/validate-session` handler (source
lines 138-189), in source order: feature-flag gate (139-141), validationURL
presence check (143-144), merchant configuration check (147-156), credential
read `fs.readFileSync(MERCHANT_CERT_PATH)` (158, `readCert` returning `none`
models a throw), outbound `fetch` (171-176, `FetchOutcome.failure` models a
rejection), non-success relay (178-181), and success parse-and-reply
(183-184).  Everything thrown inside the try block is caught on lines
185-188 and answered with a generic 500. -/
def validateSession (env : Env) (validationURL : Option String)
    (readCert : String → Option String) (fetchFn : String → FetchOutcome) :
    ValidateResult :=
  if !appleEnabled env then
    ⟨501, errJson "Apple Pay validation disabled on this server.", []⟩
  else if strFalsy validationURL then
    ⟨400, errJson "Missing validationURL", []⟩
  else if strFalsy env.merchantId || strFalsy env.merchantDomain ||
      strFalsy env.merchantDisplayName || strFalsy env.merchantCertPath then
    ⟨500, errJson "Merchant config missing.", []⟩
  else
    let path := env.merchantCertPath.getD ""
    let url := validationURL.getD ""
    match readCert path with
    | none => ⟨500, errJson "Validation request failed.", [.credRead path]⟩
    | some _cert =>
      match fetchFn url with
      | .failure =>
        ⟨500, errJson "Validation request failed.",
          [.credRead path, .outboundCall url]⟩
      | .response status body =>
        if !fetchOk status then
          ⟨status, errJson (if body = "" then "Apple error" else body),
            [.credRead path, .outboundCall url]⟩
        else
          match jsonParse body with
          | none =>
            ⟨500, errJson "Validation request failed.",
              [.credRead path, .outboundCall url]⟩
          | some j => ⟨200, j, [.credRead path, .outboundCall url]⟩

/-- The `error` field of a JSON error envelope, used to state what a caller
observes. -/
def errorField : Json → Option String
  | .obj fields =>
    match fields.lookup "error" with
    | some (.str s) => some s
    | _ => none
  | _ => none

/-! ## Sorting lemmas

Stability of the descending-timestamp sort, and the position of a
freshly-appended record in the sorted output. -/

/-- Every record tagged by `tagFrom i` carries a tag of at least `i`. -/
lemma tagFrom_le_snd {l : List Payment} :
    ∀ {i : Nat} {x : Payment × Nat}, x ∈ tagFrom i l → i ≤ x.2 := by
  induction l with
  | nil => intro i x hx; cases hx
  | cons p l ih =>
    intro i x hx
    rw [tagFrom] at hx
    rcases List.mem_cons.mp hx with h | h
    · rw [h]
    · exact Nat.le_of_succ_le (ih h)

/-- Ordered insertion of a record tagged below everything in the list
commutes with dropping the tags: on such input the tagged order `tagGe`
coincides with `tsGe` on the records. -/
lemma mapFst_orderedInsert_tag (a : Payment) (i : Nat)
    (L : List (Payment × Nat)) (hL : ∀ x ∈ L, i < x.2) :
    (L.orderedInsert tagGe (a, i)).map Prod.fst =
      (L.map Prod.fst).orderedInsert tsGe a := by
  induction L with
  | nil => rfl
  | cons b L ih =>
    have hib : i < b.2 := hL b (by simp)
    have hcond : tagGe (a, i) b ↔ tsGe a b.1 := by
      unfold tagGe tsGe
      constructor
      · rintro (h | ⟨h, _⟩)
        · exact le_of_lt h
        · exact le_of_eq h.symm
      · intro h
        rcases lt_or_eq_of_le h with h' | h'
        · exact Or.inl h'
        · exact Or.inr ⟨h'.symm, le_of_lt hib⟩
    by_cases h : tsGe a b.1
    · have ht : tagGe (a, i) b := hcond.mpr h
      simp only [List.orderedInsert, if_pos ht, if_pos h, List.map_cons]
    · have ht : ¬tagGe (a, i) b := fun hc => h (hcond.mp hc)
      simp only [List.orderedInsert, if_neg ht, if_neg h, List.map_cons]
      rw [ih (fun x hx => hL x (List.mem_cons_of_mem b hx))]

/-- Stability of the store sort: sorting the records tagged with their
insertion positions by (timestamp descending, insertion index ascending) and
dropping the tags is exactly the stable sort the handler performs. -/
lemma mapFst_sortTagged (l : List Payment) :
    ∀ i, ((tagFrom i l).insertionSort tagGe).map Prod.fst =
      l.insertionSort tsGe := by
  induction l with
  | nil => intro i; rfl
  | cons a l ih =>
    intro i
    have hbound : ∀ x ∈ (tagFrom (i + 1) l).insertionSort tagGe, i < x.2 := by
      intro x hx
      have hx' : x ∈ tagFrom (i + 1) l := (List.mem_insertionSort tagGe).mp hx
      exact Nat.lt_of_succ_le (tagFrom_le_snd hx')
    calc ((tagFrom i (a :: l)).insertionSort tagGe).map Prod.fst
        = (((tagFrom (i + 1) l).insertionSort tagGe).orderedInsert
            tagGe (a, i)).map Prod.fst := rfl
      _ = (((tagFrom (i + 1) l).insertionSort tagGe).map
            Prod.fst).orderedInsert tsGe a :=
          mapFst_orderedInsert_tag a i _ hbound
      _ = (l.insertionSort tsGe).orderedInsert tsGe a := by rw [ih]
      _ = (a :: l).insertionSort tsGe := rfl

/-- Position bound for a record `e` whose multiset is `l ++ [e]`: in any
reordering `out` of it that is sorted by descending timestamp, `e` shows up
within the first `k` entries as soon as fewer than `k` records of `l` have a
timestamp at least `e.ts`. -/
lemma mem_take_sorted_perm {out l : List Payment} {e : Payment} {k : Nat}
    (hperm : List.Perm out (l ++ [e])) (hsort : out.Pairwise tsGe)
    (hcount : countGe l e.ts < k) :
    e ∈ out.take k := by
  have he : e ∈ out := hperm.mem_iff.mpr (by simp)
  obtain ⟨A, B, rfl⟩ := List.append_of_mem he
  have hA : ∀ a ∈ A, e.ts ≤ a.ts := by
    have hsplit := List.pairwise_append.mp hsort
    intro a ha
    exact hsplit.2.2 a ha e (by simp)
  have hAB : List.Perm (A ++ B) l := by
    have h1 : List.Perm (A ++ e :: B) (e :: (A ++ B)) := List.perm_middle
    have h2 : List.Perm (l ++ [e]) (e :: l) := List.perm_append_singleton e l
    exact ((h1.symm.trans hperm).trans h2).cons_inv
  have hlen : A.length ≤ countGe l e.ts := by
    have hfilter : A.filter (fun p => decide (e.ts ≤ p.ts)) = A :=
      List.filter_eq_self.mpr (fun a ha => by simpa using hA a ha)
    calc A.length = (A.filter (fun p => decide (e.ts ≤ p.ts))).length := by
          rw [hfilter]
      _ ≤ ((A ++ B).filter (fun p => decide (e.ts ≤ p.ts))).length := by
          rw [List.filter_append, List.length_append]
          exact Nat.le_add_right _ _
      _ = countGe l e.ts := (hAB.filter _).length_eq
  have hAk : A.length < k := lt_of_le_of_lt hlen hcount
  rw [List.take_append_eq_append_take]
  refine List.mem_append_right _ ?_
  cases hk : k - A.length with
  | zero => exact absurd hk (Nat.sub_ne_zero_of_lt hAk)
  | succ m => simp [List.take]

/-! ## Claim theorems -/

/-- C1: a publish delivers to every open connection of the active set at
call time, regardless of dead connections in the same set; a write onto a
dead transport is recorded as failed instead of raising to the publisher
(the fan-out is a total function), and such a connection is removed from the
active set by the transport-close handler that reaps it. -/
theorem broadcast_write_failure_isolated
    (clients : List Conn) (event : String) (data : Json) (c : Conn)
    (hmem : c ∈ clients) (hopen : c.isOpen = true) :
    (c.id, true) ∈ broadcast clients event data ∧
    ∀ f ∈ clients, f.isOpen = false →
      (f.id, false) ∈ broadcast clients event data ∧
      (clients.Nodup → f ∉ closeHandler clients f) := by
  refine ⟨List.mem_map.mpr ⟨c, hmem, by simp [connWrite, hopen]⟩, ?_⟩
  intro f hf hclosed
  refine ⟨List.mem_map.mpr ⟨f, hf, by simp [connWrite, hclosed]⟩, ?_⟩
  intro hnd
  exact hnd.not_mem_erase

/-- Witness for C1: a two-element active set with one open and one dead
connection; the open one receives the publish, the dead one's write fails
without aborting, and the close handler removes it. -/
theorem broadcast_write_failure_isolated_witness :
    (1, true) ∈ broadcast [⟨1, true⟩, ⟨2, false⟩] "payment" (.str "x") ∧
    (2, false) ∈ broadcast [⟨1, true⟩, ⟨2, false⟩] "payment" (.str "x") ∧
    (⟨2, false⟩ : Conn) ∉ closeHandler [⟨1, true⟩, ⟨2, false⟩] ⟨2, false⟩ := by
  have h := broadcast_write_failure_isolated [⟨1, true⟩, ⟨2, false⟩] "payment"
    (.str "x") ⟨1, true⟩ (by decide) rfl
  exact ⟨h.1, (h.2 ⟨2, false⟩ (by decide) rfl).1,
    (h.2 ⟨2, false⟩ (by decide) rfl).2 (by decide)⟩

/-- C9: the stream close handler (`sseClients.delete`) is idempotent:
removing the same handle twice leaves the set as a single removal does, and
removing a handle that was never registered leaves the set unchanged;
neither raises. -/
theorem unsubscribe_idempotent (clients : List Conn) (c : Conn)
    (hnd : clients.Nodup) :
    closeHandler (closeHandler clients c) c = closeHandler clients c ∧
    (c ∉ clients → closeHandler clients c = clients) := by
  constructor
  · exact List.erase_of_not_mem hnd.not_mem_erase
  · exact fun h => List.erase_of_not_mem h

/-- Witness for C9: deleting an unregistered handle twice from a concrete
two-element set. -/
theorem unsubscribe_idempotent_witness :
    closeHandler (closeHandler [⟨1, true⟩, ⟨2, true⟩] ⟨3, true⟩) ⟨3, true⟩ =
      closeHandler [⟨1, true⟩, ⟨2, true⟩] ⟨3, true⟩ ∧
    closeHandler [⟨1, true⟩, ⟨2, true⟩] ⟨3, true⟩ = [⟨1, true⟩, ⟨2, true⟩] := by
  have h := unsubscribe_idempotent [⟨1, true⟩, ⟨2, true⟩] ⟨3, true⟩ (by decide)
  exact ⟨h.1, h.2 (by decide)⟩

/-- C5: with the feature flag off, every validation request is answered 501
with the disabled error, and the effect trace is empty - no credential read
and no outbound call, whatever the oracles would return. -/
theorem disabled_rejects_501_no_effects (env : Env) (url : Option String)
    (readCert : String → Option String) (fetchFn : String → FetchOutcome)
    (hoff : appleEnabled env = false) :
    validateSession env url readCert fetchFn =
      ⟨501, errJson "Apple Pay validation disabled on this server.", []⟩ := by
  simp [validateSession, hoff]

/-- Witness for C5: a concrete disabled environment with oracles that would
fail loudly if consulted. -/
theorem disabled_rejects_501_no_effects_witness :
    appleEnabled ⟨some "false", some "id", some "dom", some "dn", some "/c"⟩ = false ∧
    validateSession ⟨some "false", some "id", some "dom", some "dn", some "/c"⟩
        (some "https://apple.example/start") (fun _ => none) (fun _ => .failure) =
      ⟨501, errJson "Apple Pay validation disabled on this server.", []⟩ :=
  ⟨rfl, disabled_rejects_501_no_effects _ _ _ _ rfl⟩

/-- C7: with the feature enabled, a request whose body lacks a non-empty
validationURL is answered 400 with the missing-URL error before anything
else: the effect trace is empty, so no credential file was read and no
network activity happened.  (With the flag off the request is instead
answered 501 by the earlier gate, which is claim C5's case.) -/
theorem missing_validation_url_rejected_first (env : Env) (url : Option String)
    (readCert : String → Option String) (fetchFn : String → FetchOutcome)
    (hon : appleEnabled env = true) (hurl : strFalsy url = true) :
    validateSession env url readCert fetchFn =
      ⟨400, errJson "Missing validationURL", []⟩ := by
  simp [validateSession, hon, hurl]

/-- Witness for C7: an enabled, fully configured server and a request with
no validationURL field. -/
theorem missing_validation_url_rejected_first_witness :
    appleEnabled ⟨some "true", some "id", some "dom", some "dn", some "/c"⟩ = true ∧
    strFalsy (none : Option String) = true ∧
    validateSession ⟨some "true", some "id", some "dom", some "dn", some "/c"⟩
        none (fun _ => none) (fun _ => .failure) =
      ⟨400, errJson "Missing validationURL", []⟩ :=
  ⟨rfl, rfl, missing_validation_url_rejected_first _ _ _ _ rfl rfl⟩

/-- C6 as stated is refuted: the handler checks the request's validationURL
(source line 143) BEFORE the merchant configuration (line 154), so an
enabled but misconfigured server answers a request without a validationURL
with the 400 bad-request error, not with the configuration-error signal. -/
theorem misconfigured_signal_refuted :
    appleEnabled ⟨some "true", none, some "dom", some "dn", some "/c"⟩ = true ∧
    strFalsy (Env.merchantId ⟨some "true", none, some "dom", some "dn", some "/c"⟩) = true ∧
    (validateSession ⟨some "true", none, some "dom", some "dn", some "/c"⟩
        none (fun _ => some "PEM") (fun _ => .failure)).status = 400 ∧
    errorField (validateSession ⟨some "true", none, some "dom", some "dn", some "/c"⟩
        none (fun _ => some "PEM") (fun _ => .failure)).body ≠
      some "Merchant config missing." := by
  refine ⟨rfl, rfl, rfl, ?_⟩
  decide

/-- C6 (corrected): with the feature enabled and a non-empty validationURL
supplied, a missing merchant-configuration field is answered 500 with the
configuration error and an empty effect trace - no credential read, no
outbound call. -/
theorem misconfigured_rejects_config_error (env : Env) (url : Option String)
    (readCert : String → Option String) (fetchFn : String → FetchOutcome)
    (hon : appleEnabled env = true) (hurl : strFalsy url = false)
    (hmiss : (strFalsy env.merchantId || strFalsy env.merchantDomain ||
      strFalsy env.merchantDisplayName || strFalsy env.merchantCertPath) = true) :
    validateSession env url readCert fetchFn =
      ⟨500, errJson "Merchant config missing.", []⟩ := by
  simp [validateSession, hon, hurl, hmiss]

/-- Witness for C6 (corrected): enabled server missing its merchant id,
request supplying a URL. -/
theorem misconfigured_rejects_config_error_witness :
    appleEnabled ⟨some "true", none, some "dom", some "dn", some "/c"⟩ = true ∧
    strFalsy (some "https://apple.example/start") = false ∧
    validateSession ⟨some "true", none, some "dom", some "dn", some "/c"⟩
        (some "https://apple.example/start") (fun _ => none) (fun _ => .failure) =
      ⟨500, errJson "Merchant config missing.", []⟩ :=
  ⟨rfl, rfl, misconfigured_rejects_config_error _ _ _ _ rfl rfl rfl⟩

/-- C3 as stated is refuted: when the upstream replies with a non-success
status and an EMPTY body, the handler substitutes the fixed text "Apple
error" (source line 180, `text || 'Apple error'`), so the caller does not
receive the upstream body as received. -/
theorem relay_empty_body_refuted :
    (validateSession ⟨some "true", some "id", some "dom", some "dn", some "/c"⟩
        (some "https://apple.example/start") (fun _ => some "PEM")
        (fun _ => .response 418 "")).status = 418 ∧
    errorField (validateSession ⟨some "true", some "id", some "dom", some "dn", some "/c"⟩
        (some "https://apple.example/start") (fun _ => some "PEM")
        (fun _ => .response 418 "")).body = some "Apple error" ∧
    some "Apple error" ≠ some ("" : String) := by
  refine ⟨rfl, rfl, ?_⟩
  decide

/-- C3 (corrected): on a non-success upstream status the handler relays that
status, and wraps the upstream body text in the error envelope; an empty
upstream body is replaced by the fixed text "Apple error".  The credential
read and the single outbound call are the only effects. -/
theorem relay_nonsuccess_status_and_body (env : Env) (url : Option String)
    (readCert : String → Option String) (fetchFn : String → FetchOutcome)
    (status : Nat) (body : String)
    (hon : appleEnabled env = true) (hurl : strFalsy url = false)
    (hconf : (strFalsy env.merchantId || strFalsy env.merchantDomain ||
      strFalsy env.merchantDisplayName || strFalsy env.merchantCertPath) = false)
    (hcert : ∃ c, readCert (env.merchantCertPath.getD "") = some c)
    (hfetch : fetchFn (url.getD "") = .response status body)
    (hfail : fetchOk status = false) :
    validateSession env url readCert fetchFn =
      ⟨status, errJson (if body = "" then "Apple error" else body),
        [.credRead (env.merchantCertPath.getD ""), .outboundCall (url.getD "")]⟩ := by
  obtain ⟨c, hc⟩ := hcert
  simp [validateSession, hon, hurl, hconf, hc, hfetch, hfail]

/-- Witness for C3 (corrected): upstream denies with 418 and a non-empty
body; status and body text are relayed inside the error envelope. -/
theorem relay_nonsuccess_status_and_body_witness :
    fetchOk 418 = false ∧
    validateSession ⟨some "true", some "id", some "dom", some "dn", some "/c"⟩
        (some "https://apple.example/start") (fun _ => some "PEM")
        (fun _ => .response 418 "denied") =
      ⟨418, errJson "denied",
        [.credRead "/c", .outboundCall "https://apple.example/start"]⟩ := by
  have h := relay_nonsuccess_status_and_body
    ⟨some "true", some "id", some "dom", some "dn", some "/c"⟩
    (some "https://apple.example/start") (fun _ => some "PEM")
    (fun _ => .response 418 "denied") 418 "denied"
    rfl rfl rfl ⟨"PEM", rfl⟩ rfl rfl
  exact ⟨rfl, by simpa using h⟩

/-- C4 as stated is refuted: the success body is `JSON.parse`d and the
parsed value re-serialized by `res.json` (source lines 183-184), so a body
that is not in canonical serialization - here one with a leading space - is
NOT returned verbatim. -/
theorem resolved_body_verbatim_refuted :
    (validateSession ⟨some "true", some "id", some "dom", some "dn", some "/c"⟩
        (some "https://apple.example/start") (fun _ => some "PEM")
        (fun _ => .response 200 " \x7b\"ok\":true\x7d")).status = 200 ∧
    stringify (validateSession ⟨some "true", some "id", some "dom", some "dn", some "/c"⟩
        (some "https://apple.example/start") (fun _ => some "PEM")
        (fun _ => .response 200 " \x7b\"ok\":true\x7d")).body ≠
      " \x7b\"ok\":true\x7d" := by
  refine ⟨rfl, ?_⟩
  decide

/-- C4 (corrected): on a success status the upstream body is parsed as JSON
and the parsed value is returned (status 200); the wire body the caller sees
is the re-serialization, so it is byte-identical to the upstream body
exactly when that body is already in canonical serialization - in
particular for the body rendered from `{ ok: true }` without spaces. -/
theorem resolved_body_reserialized (env : Env) (url : Option String)
    (readCert : String → Option String) (fetchFn : String → FetchOutcome)
    (status : Nat) (body : String) (j : Json)
    (hon : appleEnabled env = true) (hurl : strFalsy url = false)
    (hconf : (strFalsy env.merchantId || strFalsy env.merchantDomain ||
      strFalsy env.merchantDisplayName || strFalsy env.merchantCertPath) = false)
    (hcert : ∃ c, readCert (env.merchantCertPath.getD "") = some c)
    (hfetch : fetchFn (url.getD "") = .response status body)
    (hok : fetchOk status = true) (hparse : jsonParse body = some j) :
    (validateSession env url readCert fetchFn).status = 200 ∧
    (validateSession env url readCert fetchFn).body = j ∧
    (body = stringify j →
      stringify (validateSession env url readCert fetchFn).body = body) := by
  obtain ⟨c, hc⟩ := hcert
  have hres : validateSession env url readCert fetchFn =
      ⟨200, j, [.credRead (env.merchantCertPath.getD ""),
        .outboundCall (url.getD "")]⟩ := by
    simp [validateSession, hon, hurl, hconf, hc, hfetch, hok, hparse]
  refine ⟨by rw [hres], by rw [hres], ?_⟩
  intro hcanon
  rw [hres, hcanon]

/-- Witness for C4 (corrected): upstream replies HTTP 200 with the exact
body rendered from `{ ok: true }`; the caller receives that body
byte-identical. -/
theorem resolved_body_reserialized_witness :
    jsonParse "\x7b\"ok\":true\x7d" = some (.obj [("ok", .bool true)]) ∧
    stringify (validateSession ⟨some "true", some "id", some "dom", some "dn", some "/c"⟩
        (some "https://apple.example/start") (fun _ => some "PEM")
        (fun _ => .response 200 "\x7b\"ok\":true\x7d")).body = "\x7b\"ok\":true\x7d" ∧
    (validateSession ⟨some "true", some "id", some "dom", some "dn", some "/c"⟩
        (some "https://apple.example/start") (fun _ => some "PEM")
        (fun _ => .response 200 "\x7b\"ok\":true\x7d")).status = 200 := by
  have h := resolved_body_reserialized
    ⟨some "true", some "id", some "dom", some "dn", some "/c"⟩
    (some "https://apple.example/start") (fun _ => some "PEM")
    (fun _ => .response 200 "\x7b\"ok\":true\x7d") 200 "\x7b\"ok\":true\x7d"
    (.obj [("ok", .bool true)]) rfl rfl rfl ⟨"PEM", rfl⟩ rfl rfl rfl
  exact ⟨rfl, h.2.2 rfl, h.1⟩

/-- C10: at `GET /api/payments`, an absent limit parameter defaults to 25
(the response is the first 25 of the sorted copy), and a present but
non-numeric parameter converts to NaN, which `Math.min` propagates and
`slice` turns into an empty result whatever the store holds. -/
theorem get_payments_limit_defaults (payments : List Payment) :
    getPayments payments none = (sortPayments payments).take 25 ∧
    ∀ s : String, jsStringToNumber s = .nan →
      getPayments payments (some s) = [] := by
  constructor
  · simp [getPayments, jsMin, jsSliceEnd]
  · intro s hs
    have hne : s ≠ "" := by
      intro h
      rw [h] at hs
      exact absurd hs (by decide)
    simp [getPayments, hne, hs, jsMin, jsSliceEnd]

/-- Witness for C10: a non-numeric limit string on a non-empty store yields
an empty payments list; the absent parameter yields the sorted store (fewer
than 25 records here). -/
theorem get_payments_limit_defaults_witness :
    jsStringToNumber "abc" = .nan ∧
    getPayments [⟨"A", "QR", 1, 5⟩] (some "abc") = [] ∧
    getPayments [⟨"A", "QR", 1, 5⟩] none = [⟨"A", "QR", 1, 5⟩] := by
  have h := get_payments_limit_defaults [⟨"A", "QR", 1, 5⟩]
  exact ⟨rfl, h.2 "abc" rfl, by rw [h.1]; decide⟩

/-- C2 as stated is refuted: on two records appended with EQUAL timestamps,
the stable sort of source line 128 keeps the earlier insertion first, while
the claim's tie rule (most-recently-appended first, rendered by
`specRecentClaim`) demands the later insertion first. -/
theorem recent_tie_order_refuted :
    recentCore [⟨"A", "QR", 1, 5⟩, ⟨"B", "QR", 2, 5⟩] 2 =
      [⟨"A", "QR", 1, 5⟩, ⟨"B", "QR", 2, 5⟩] ∧
    specRecentClaim [⟨"A", "QR", 1, 5⟩, ⟨"B", "QR", 2, 5⟩] 2 =
      [⟨"B", "QR", 2, 5⟩, ⟨"A", "QR", 1, 5⟩] ∧
    recentCore [⟨"A", "QR", 1, 5⟩, ⟨"B", "QR", 2, 5⟩] 2 ≠
      specRecentClaim [⟨"A", "QR", 1, 5⟩, ⟨"B", "QR", 2, 5⟩] 2 := by
  refine ⟨by decide, by decide, by decide⟩

/-- C2 (corrected): `recent(limit)` returns at most `min limit 200` records,
ordered by non-increasing timestamp, and equals the sort of the records by
(timestamp descending, insertion index ASCENDING): equal-timestamp records
appear with the earlier insertion first, the stable-sort order. -/
theorem recent_sorted_clamped_stable (payments : List Payment) (limit : Nat) :
    (recentCore payments limit).length ≤ min limit 200 ∧
    (recentCore payments limit).Pairwise tsGe ∧
    recentCore payments limit = specRecentStable payments limit := by
  refine ⟨?_, ?_, ?_⟩
  · exact List.length_take_le (min limit 200) (sortPayments payments)
  · exact ((List.sorted_insertionSort tsGe payments).sublist
      (List.take_sublist _ _))
  · unfold recentCore specRecentStable sortPayments
    rw [mapFst_sortTagged payments 0]

/-- C8 (corrected): the GET handler leaves the store untouched, a rejected
body leaves it untouched, and an accepted body appends exactly one record
(so the count strictly grows by one and nothing is ever deleted); the new
record is returned by a subsequent recent query with limit `N` whenever
fewer than `min N 200` already-stored records have a timestamp at least the
new record's - in particular by an unrestricted query unless 200 or more
records tie at or above its timestamp. -/
theorem ledger_monotonic (payments : List Payment) (q : Option String)
    (b : PaymentBody) (now : Int) :
    (getPaymentsHandler payments q).2 = payments ∧
    (paymentValidate b = none → (postPayment payments b now).2 = payments) ∧
    ∀ v, paymentValidate b = some v →
      (postPayment payments b now).2 = payments ++ [mkEntry v now] ∧
      (postPayment payments b now).2.length = payments.length + 1 ∧
      ∀ N : Nat, countGe payments now < min N 200 →
        mkEntry v now ∈ recentCore (postPayment payments b now).2 N := by
  refine ⟨rfl, ?_, ?_⟩
  · intro hnone
    simp [postPayment, hnone]
  · intro v hv
    have happ : (postPayment payments b now).2 = payments ++ [mkEntry v now] := by
      simp [postPayment, hv]
    refine ⟨happ, by simp [happ], ?_⟩
    intro N hN
    rw [happ]
    unfold recentCore
    exact mem_take_sorted_perm
      (List.perm_insertionSort tsGe (payments ++ [mkEntry v now]))
      (List.sorted_insertionSort tsGe (payments ++ [mkEntry v now])) hN

/-- Witness for C8: appending a valid confirmation to an empty store grows
the count to one and the record is returned by `recent 1`. -/
theorem ledger_monotonic_witness :
    paymentValidate ⟨some "Test", some "QR", some 15⟩ = some ("Test", "QR", 15) ∧
    (postPayment [] ⟨some "Test", some "QR", some 15⟩ 100).2 =
      [⟨"Test", "QR", 15, 100⟩] ∧
    (postPayment [] ⟨some "Test", some "QR", some 15⟩ 100).2.length = 0 + 1 ∧
    mkEntry ("Test", "QR", 15) 100 ∈
      recentCore (postPayment [] ⟨some "Test", some "QR", some 15⟩ 100).2 1 := by
  have h := ledger_monotonic [] none ⟨some "Test", some "QR", some 15⟩ 100
  have hv : paymentValidate ⟨some "Test", some "QR", some 15⟩ =
      some ("Test", "QR", 15) := by decide
  have h2 := h.2.2 ("Test", "QR", 15) hv
  exact ⟨hv, h2.1.trans rfl, h2.2.1.trans rfl, h2.2.2 1 (by decide)⟩

set_option maxRecDepth 100000 in
/-- C8's unconditional inclusion sub-claim is refuted: with 200 records
already stored at the same timestamp as the new one, the stable sort places
the new record at position 200 and the 200-clamp cuts it from even an
unrestricted recent query, although it was appended and counted. -/
theorem ledger_recent_inclusion_refuted :
    (postPayment (List.replicate 200 ⟨"Old", "QR", 1, 10⟩)
        ⟨some "New", some "QR", some 15⟩ 10).1 =
      some (mkEntry ("New", "QR", 15) 10) ∧
    (postPayment (List.replicate 200 ⟨"Old", "QR", 1, 10⟩)
        ⟨some "New", some "QR", some 15⟩ 10).2.length = 201 ∧
    mkEntry ("New", "QR", 15) 10 ∉
      recentCore (postPayment (List.replicate 200 ⟨"Old", "QR", 1, 10⟩)
        ⟨some "New", some "QR", some 15⟩ 10).2 1000 := by
  refine ⟨by decide, by decide, by decide⟩

end Sasa
